import Mathlib

/-!
Verification of the transit-agent real-time turn-taking and echo-suppression
pipeline. Shallow embedding of `agent/echo_guard.py`, `agent/audio_input.py`,
`agent/audio_output.py`, `agent/main.py` and `agent/proactive.py`.

Modelling conventions:
* Time (Python `time.monotonic()`) is an explicit rational parameter.
* Strings are `List Char`; Python `str.lower` / `str.strip` are modelled on
  ASCII text, which is all the code ever feeds them.
* Python floats are modelled as exact rationals.  The similarity values the
  code compares are fractions `2*M/T` with `T` below a few hundred, where
  double rounding cannot flip a comparison against the 0.70 threshold except
  at exact equality, where both sides agree.
* `difflib.SequenceMatcher` (stdlib, with `isjunk=None`) is embedded for
  inputs shorter than 200 characters, where autojunk is inert: the total
  matched size is computed by the standard divide-and-conquer on the longest
  common contiguous block, ties broken by smallest position in `a`, then in
  `b`, exactly as difflib's `find_longest_match` tie-breaks.
* The hot recursions are written as explicit `Nat.rec` / `List.rec` terms in
  tail-call form so concrete instances evaluate inside the kernel.
-/

namespace TransitAgent

/-! ## echo_guard.py: configuration constants -/

/-- HOLDOFF_SECONDS = 0.45 (echo_guard.py line 11). -/
def HOLDOFF_SECONDS : ℚ := 45 / 100

/-- ECHO_THRESHOLD = 0.70 (echo_guard.py line 12). -/
def ECHO_THRESHOLD : ℚ := 70 / 100

/-- RECENT_SPEECH_WINDOW = 5 (echo_guard.py line 13). -/
def RECENT_SPEECH_WINDOW : ℕ := 5

/-! ## Python string helpers used by the code under verification -/

/-- Characters removed by Python `str.strip()` with no argument (ASCII whitespace). -/
def isPySpace (c : Char) : Bool :=
  c = ' ' || c = '\t' || c = '\n' || c = '\r' || c = '\x0b' || c = '\x0c'

/-- Python `str.strip()`: drop leading and trailing whitespace. -/
def pyStrip (s : List Char) : List Char :=
  ((s.dropWhile isPySpace).reverse.dropWhile isPySpace).reverse

/-- Python `str.lower()` on ASCII text. -/
def pyLower (s : List Char) : List Char :=
  s.map Char.toLower

/-! ## difflib.SequenceMatcher, as used by echo_guard.is_echo

`SequenceMatcher(None, t, utterance).ratio()` returns `2*M/T` where `T` is the
total length of the two strings and `M` is the total size of the matching
blocks found by recursively taking the longest common contiguous block
(earliest in `a`, then earliest in `b`, on ties) and recursing on the pieces
to its left and to its right.  `ratio` of two empty strings is 1.0. -/

/-- Length of the common prefix run of two suffixes. -/
def runLen : List Char → List Char → Nat
  | a :: as, b :: bs => if a = b then runLen as bs + 1 else 0
  | _, _ => 0

/-- Size of the common block starting at `a[i]`, `b[j]`, clipped to the search
window `a[i:ahi]`, `b[j:bhi]`. -/
def matchLenAt (a b : List Char) (i j ahi bhi : Nat) : Nat :=
  min (runLen (a.drop i) (b.drop j)) (min (ahi - i) (bhi - j))

/-- All candidate block positions of the window, in difflib's scan order:
`i` ascending, and `j` ascending within each `i`. -/
def pairGrid (alo ahi blo bhi : Nat) : List (Nat × Nat) :=
  (List.range' alo (ahi - alo)).flatMap
    (fun i => (List.range' blo (bhi - blo)).map (fun j => (i, j)))

/-- Scan the candidate positions keeping the first strictly-longest block,
which reproduces difflib's tie-breaking (smallest `i`, then smallest `j`). -/
def flmGo (a b : List Char) (ahi bhi : Nat) (ps : List (Nat × Nat)) (best : Nat × Nat × Nat) :
    Nat × Nat × Nat :=
  List.rec (motive := fun _ => Nat × Nat × Nat → Nat × Nat × Nat)
    (fun acc => acc)
    (fun p _ ih acc =>
      let k := matchLenAt a b p.1 p.2 ahi bhi
      match (if k > acc.2.2 then (p.1, p.2, k) else acc) with
      | (bi, bj, bk) => ih (bi, bj, bk))
    ps best

/-- difflib `find_longest_match` on the window `a[alo:ahi]`, `b[blo:bhi]`
(no junk, autojunk inert below 200 characters): the longest common contiguous
block `(i, j, size)`, ties broken by smallest `i` then smallest `j`. -/
def findLongestMatch (a b : List Char) (alo ahi blo bhi : Nat) : Nat × Nat × Nat :=
  flmGo a b ahi bhi (pairGrid alo ahi blo bhi) (alo, blo, 0)

/-- Total size of difflib's matching blocks inside a window, by the
divide-and-conquer of `get_matching_blocks`; `fuel` bounds the recursion depth
(window widths shrink at every level). -/
def matchingTotal (a b : List Char) (fuel : Nat) : Nat × Nat × Nat × Nat → Nat :=
  Nat.rec (motive := fun _ => Nat × Nat × Nat × Nat → Nat)
    (fun _ => 0)
    (fun _ ih w =>
      match findLongestMatch a b w.1 w.2.1 w.2.2.1 w.2.2.2 with
      | (i, j, k) =>
        if k = 0 then 0
        else k + ih (w.1, i, w.2.2.1, j) + ih (i + k, w.2.1, j + k, w.2.2.2))
    fuel

/-- Total matched size `M` for `SequenceMatcher(None, a, b)`. -/
def smMatches (a b : List Char) : Nat :=
  matchingTotal a b (a.length + b.length + 1) (0, a.length, 0, b.length)

/-- `SequenceMatcher(None, a, b).ratio()`: `2*M/T`, and 1 when both strings
are empty (difflib `_calculate_ratio`). -/
def smRatio (a b : List Char) : ℚ :=
  if a.length + b.length = 0 then 1
  else 2 * (smMatches a b : ℚ) / ((a.length + b.length : ℕ) : ℚ)

/-! ## echo_guard.py: state and gate API

The module-level globals `_is_speaking`, `_holdoff_until`, `_recent_utterances`
are modelled as one explicit state record. -/

/-- Module state of echo_guard.py (lines 17-19). -/
structure EchoGuardState where
  is_speaking : Bool
  holdoff_until : ℚ
  recent_utterances : List (List Char)
deriving Repr, DecidableEq

/-- Initial module state (echo_guard.py lines 17-19), also the result of `clear()`
(lines 83-88). -/
def clearGuard : EchoGuardState :=
  { is_speaking := false, holdoff_until := 0, recent_utterances := [] }

/-- Model of `set_speaking(active, holdoff)` (echo_guard.py lines 24-32) called at
time `now`: sets `_is_speaking = active`; when `active` is false and `holdoff` is
true, sets `_holdoff_until = now + HOLDOFF_SECONDS`. -/
def set_speaking (st : EchoGuardState) (active : Bool) (holdoff : Bool) (now : ℚ) :
    EchoGuardState :=
  { st with
    is_speaking := active
    holdoff_until := if !active && holdoff then now + HOLDOFF_SECONDS else st.holdoff_until }

/-- Model of `is_gated()` (echo_guard.py lines 35-44) evaluated at time `now`. -/
def is_gated (st : EchoGuardState) (now : ℚ) : Bool :=
  if st.is_speaking then true
  else if now < st.holdoff_until then true
  else false

/-- Model of `register_utterance(text)` (echo_guard.py lines 49-57): append
`text.lower().strip()` and pop the oldest entry when the length exceeds
RECENT_SPEECH_WINDOW. -/
def register_utterance (st : EchoGuardState) (text : List Char) : EchoGuardState :=
  let recs := st.recent_utterances ++ [pyStrip (pyLower text)]
  { st with recent_utterances := if recs.length > RECENT_SPEECH_WINDOW then recs.drop 1 else recs }

/-- Python's `t in u` on strings: `t` occurs as a contiguous substring of `u`. -/
def isSubstr : List Char → List Char → Bool
  | t, [] => t.isEmpty
  | t, c :: rest => t.isPrefixOf (c :: rest) || isSubstr t rest

/-- The check `SequenceMatcher(None, t, u).ratio() >= ECHO_THRESHOLD`
(echo_guard.py line 72) in its exact integer form: `2*M/T ≥ 70/100` (with the
ratio of two empty strings being 1) iff `7*T ≤ 20*M`; the equivalence with the
rational statement is `ratio_threshold_iff` below.  The integer form evaluates
by kernel reduction on concrete strings. -/
def ratioGeThreshold (t u : List Char) : Bool :=
  decide (7 * (t.length + u.length) ≤ 20 * smMatches t u)

/-- Model of `is_echo(transcript)` (echo_guard.py lines 60-80): false when no
recent utterances are stored or the transcript is the empty string; otherwise
true iff some stored utterance has similarity ratio at least ECHO_THRESHOLD
with the lowered, stripped transcript, or the lowered, stripped transcript is
longer than 8 characters and a substring of the stored utterance.  The
per-utterance loop returning on the first hit is an `any` of the disjunction
of its two checks. -/
def is_echo (st : EchoGuardState) (transcript : List Char) : Bool :=
  if st.recent_utterances.isEmpty || transcript.isEmpty then false
  else
    let t := pyStrip (pyLower transcript)
    st.recent_utterances.any fun u =>
      ratioGeThreshold t u || (decide (t.length > 8) && isSubstr t u)

/-! ## audio_input.py: capture/VAD segmenter -/

/-- SAMPLE_RATE = 16000 (audio_input.py line 30). -/
def SAMPLE_RATE : ℕ := 16000

/-- CHUNK_MS = 30 (audio_input.py line 31). -/
def CHUNK_MS : ℕ := 30

/-- CHUNK_SAMPLES = int(16000 * 30 / 1000) = 480 (audio_input.py line 32). -/
def CHUNK_SAMPLES : ℕ := 480

/-- SILENCE_MS = 700 (audio_input.py line 33). -/
def SILENCE_MS : ℕ := 700

/-- MIN_UTTERANCE_MS = 400 (audio_input.py line 34). -/
def MIN_UTTERANCE_MS : ℕ := 400

/-- Buffering state closed over by `audio_callback` (audio_input.py lines 55-57):
`buffer` holds the ids of the buffered frames, each one `CHUNK_SAMPLES` samples. -/
structure SegState where
  buffer : List ℕ
  speech_started : Bool
  silence_frames : ℕ
deriving Repr, DecidableEq

/-- Initial buffering state (audio_input.py lines 55-57). -/
def initSeg : SegState :=
  { buffer := [], speech_started := false, silence_frames := 0 }

/-- One 30 ms input frame: an id, the VAD classification the code would compute
for it, and the value `echo_guard.is_gated()` returns when the callback runs. -/
structure Frame where
  id : ℕ
  isSpeech : Bool
  gated : Bool
deriving Repr, DecidableEq

/-- Model of one invocation of `audio_callback` (audio_input.py lines 60-110).
Returns the new buffering state, and the finalized buffer handed to the
transcription executor, when this frame finalized an utterance at least
`int(MIN_UTTERANCE_MS / 1000 * SAMPLE_RATE)` samples long. -/
def audio_callback (s : SegState) (f : Frame) : SegState × Option (List ℕ) :=
  if f.gated then (initSeg, none)
  else if f.isSpeech then
    ({ buffer := s.buffer ++ [f.id], speech_started := true, silence_frames := 0 }, none)
  else if s.speech_started then
    let buf := s.buffer ++ [f.id]
    let sil := s.silence_frames + 1
    if sil * CHUNK_MS ≥ SILENCE_MS then
      (initSeg,
        if buf.length * CHUNK_SAMPLES ≥ MIN_UTTERANCE_MS * SAMPLE_RATE / 1000 then some buf
        else none)
    else ({ buffer := buf, speech_started := true, silence_frames := sil }, none)
  else ({ s with buffer := [] }, none)

/-- Run `audio_callback` over a frame sequence, collecting every utterance
dispatched for transcription. -/
def runFrames (fs : List Frame) (s : SegState) : SegState × List (List ℕ) :=
  fs.foldl
    (fun acc f =>
      match audio_callback acc.1 f with
      | (s2, out) => (s2, acc.2 ++ out.toList))
    (s, [])

/-- Model of the consumer loop body of `transcripts_from_mic_queued`
(audio_input.py lines 121-131): each `(text, ts)` item pulled from the queue is
yielded unless `echo_guard.is_echo(text)`; the item's timestamp is never
consulted.  The guard state is the one current while draining these items. -/
def streamFilter (st : EchoGuardState) (items : List (List Char × ℚ)) :
    List (List Char × ℚ) :=
  items.filter fun it => !is_echo st it.1

/-! ## audio_output.py: TTS normalization, speak queue and speaker loop -/

/-- Trailing characters stripped by `_normalize_for_tts` (audio_output.py line 53). -/
def isTrailPunct (c : Char) : Bool :=
  c = '.' || c = ',' || c = '!' || c = '?' || c = ';' || c = ':'

/-- The `while t and t[-1] in ".,!?;:": t = t[:-1].rstrip()` loop of
`_normalize_for_tts`, acting on the reversed string; the fuel is at least the
string length, and every iteration drops at least one character. -/
def stripPunctLoop : Nat → List Char → List Char
  | 0, r => r
  | _ + 1, [] => []
  | fuel + 1, c :: rest =>
    if isTrailPunct c then stripPunctLoop fuel (rest.dropWhile isPySpace) else c :: rest

/-- Model of `_normalize_for_tts(text)` (audio_output.py lines 48-55). -/
def normalize_for_tts (text : List Char) : List Char :=
  if text.isEmpty || (pyStrip text).isEmpty then text
  else
    let t0 := pyStrip text
    let t := (stripPunctLoop (t0.length + 1) t0.reverse).reverse
    if t.isEmpty then pyStrip text else t

/-- State touched by `speak` (audio_output.py lines 143-153): the module queue
`_speak_queue` (`none` while the speaker loop has not been started) and the
echo-guard state. -/
structure SpeakerSys where
  queue : Option (List (List Char))
  guard : EchoGuardState
deriving Repr, DecidableEq

/-- Model of the enqueue phase of `speak(text)` (audio_output.py lines 143-153):
empty or whitespace-only text returns at once; otherwise the queue (created on
first use, which also starts the speaker loop) receives the request. -/
def speak (sys : SpeakerSys) (text : List Char) : SpeakerSys :=
  if text.isEmpty || (pyStrip text).isEmpty then sys
  else
    match sys.queue with
    | none => { sys with queue := some [text] }
    | some q => { sys with queue := some (q ++ [text]) }

/-- Model of `_speaker_loop` servicing one dequeued request (audio_output.py
lines 165-190).  `playOk` is whether playback raised; the exception is caught,
and the `finally` block runs either way.  `doneAtEntry` is whether the request's
future was already resolved when dequeued (`speak` always hands over a fresh,
unresolved future).  Returns the guard state after the request and how many
times the future was resolved. -/
def serviceRequest (st : EchoGuardState) (text : List Char) (playOk : Bool)
    (doneAtEntry : Bool) (startTime endTime : ℚ) : EchoGuardState × ℕ :=
  let t := normalize_for_tts text
  if t.isEmpty then (st, if doneAtEntry then 0 else 1)
  else
    let st1 := register_utterance st t
    let st2 := set_speaking st1 true true startTime
    let _ := playOk
    let st3 := set_speaking st2 false true endTime
    (st3, if doneAtEntry then 0 else 1)

/-! ## main.py: transcript dedupe filter -/

/-- TRANSCRIPT_DEDUPE_SEC = 8 (main.py line 60). -/
def TRANSCRIPT_DEDUPE_SEC : ℚ := 8

/-- The globals `_last_transcript_key`, `_last_transcript_time`
(main.py lines 61-62). -/
structure DedupeState where
  last_key : List Char
  last_time : ℚ
deriving Repr, DecidableEq

/-- The normalization `transcript.strip().lower()` used by the dedupe filter
(main.py lines 68 and 80). -/
def normKey (t : List Char) : List Char :=
  pyLower (pyStrip t)

/-- Model of `_transcript_seen_recently` (main.py lines 65-74) at time `now`:
an empty key is always "seen"; otherwise seen iff the key equals the last
processed key and less than TRANSCRIPT_DEDUPE_SEC elapsed. -/
def transcript_seen_recently (st : DedupeState) (now : ℚ) (transcript : List Char) : Bool :=
  let key := normKey transcript
  if key.isEmpty then true
  else decide (key = st.last_key) && decide (now - st.last_time < TRANSCRIPT_DEDUPE_SEC)

/-- Model of `_mark_transcript_processed` (main.py lines 77-81) at time `now`. -/
def mark_transcript_processed (_st : DedupeState) (now : ℚ) (transcript : List Char) :
    DedupeState :=
  { last_key := normKey transcript, last_time := now }

/-- The dedupe prologue of the main transcript loop (main.py lines 191-194)
over a sequence of timestamped transcripts: a seen transcript is skipped, any
other is marked processed and counted as one processed event. -/
def processTranscripts (st : DedupeState) (items : List (ℚ × List Char)) : DedupeState × ℕ :=
  items.foldl
    (fun acc it =>
      if transcript_seen_recently acc.1 it.1 it.2 then acc
      else (mark_transcript_processed acc.1 it.1 it.2, acc.2 + 1))
    (st, 0)

/-! ## main.py: the turn lock

Both complete-turn code paths take the single `_turn_lock` around response
generation, speech and the final idle display update: the user-transcript turn
(main.py lines 207-221) and `on_proactive_trigger` (main.py lines 84-95).
A turn is modelled as its sequence of observable events; `hasText` is whether
`run_turn` returned text to speak (`if text:`). -/

/-- Events of one turn, in program order. -/
inductive TurnEvent where
  | acquire
  | generate
  | displaySpeaking
  | speakCall
  | displayIdle
  | release
deriving Repr, DecidableEq

/-- The events strictly inside the lock, shared by the user-transcript turn
(main.py lines 208-220) and the proactive turn (main.py lines 88-94):
`run_turn`, then when text came back the speaking display update and `speak`,
then the idle display update. -/
def midBody (hasText : Bool) : List TurnEvent :=
  [TurnEvent.generate] ++
    (if hasText then [TurnEvent.displaySpeaking, TurnEvent.speakCall] else []) ++
    [TurnEvent.displayIdle]

/-- One complete turn: acquire the turn lock, run the locked body, release. -/
def turnBody (hasText : Bool) : List TurnEvent :=
  TurnEvent.acquire :: (midBody hasText ++ [TurnEvent.release])

/-- Tag a turn's events with the id of the task running it. -/
def tagEvents (tid : Bool) (es : List TurnEvent) : List (Bool × TurnEvent) :=
  es.map fun e => (tid, e)

/-- Interleaving of two event sequences into one schedule. -/
inductive Weave : List (Bool × TurnEvent) → List (Bool × TurnEvent) →
    List (Bool × TurnEvent) → Prop where
  | nil : Weave [] [] []
  | left : Weave xs ys zs → Weave (x :: xs) ys (x :: zs)
  | right : Weave xs ys zs → Weave xs (y :: ys) (y :: zs)

/-- Mutual-exclusion semantics of `asyncio.Lock`: an acquire suspends until no
task holds the lock, a release requires the holder.  `h` is the current holder. -/
def lockOk : Option Bool → List (Bool × TurnEvent) → Bool
  | _, [] => true
  | h, (t, e) :: rest =>
    match e with
    | TurnEvent.acquire => decide (h = none) && lockOk (some t) rest
    | TurnEvent.release => decide (h = some t) && lockOk none rest
    | _ => lockOk h rest

/-! ## proactive.py: trigger evaluator -/

/-- The fields of `RideContext` (context.py lines 9-18) read by the trigger
predicates; the remaining fields (route and stop names, passenger count, the
cabin record) are presentation data never read by the code modelled here. -/
structure RideContext where
  eta_seconds : ℤ
  ride_duration_seconds : ℤ
  elapsed_seconds : ℤ
  hour_of_day : ℤ
deriving Repr, DecidableEq

/-- The static trigger table TRIGGERS (proactive.py lines 14-20): key and
predicate, in table order. -/
def TRIGGERS : List (String × (RideContext → Bool)) :=
  [("boarding", fun ctx => decide (ctx.elapsed_seconds < 15)),
   ("long_ride", fun ctx =>
      decide (ctx.ride_duration_seconds > 600) && decide (ctx.elapsed_seconds < 120)),
   ("pre_arrival", fun ctx => decide (ctx.eta_seconds < 180)),
   ("nighttime", fun ctx => decide (ctx.hour_of_day > 20) || decide (ctx.hour_of_day < 6)),
   ("mid_ride_silence", fun ctx => decide (ctx.elapsed_seconds > 300))]

/-- Accumulator of one tick of `proactive_loop`: the `offered` set, the keys
whose handler was invoked this tick in order, and how many times
`can_run_now()` has been called so far this tick. -/
structure TickAcc where
  offered : List String
  fired : List String
  calls : ℕ

/-- The `for key, condition, _ in TRIGGERS` loop of one tick (proactive.py
lines 49-61): skip offered keys, skip false predicates, re-check the gate
before firing (`gate` gives the answer of each successive `can_run_now()`
call; `useGate` is whether `can_run_now` was passed at all), and on firing add
the key to `offered` and invoke the handler (exceptions from the handler are
caught, so the key stays offered and the loop continues). -/
def tickLoop (gate : ℕ → Bool) (useGate : Bool) (ctx : RideContext) :
    List (String × (RideContext → Bool)) → TickAcc → TickAcc
  | [], acc => acc
  | (key, cond) :: rest, acc =>
    if key ∈ acc.offered then tickLoop gate useGate ctx rest acc
    else if !cond ctx then tickLoop gate useGate ctx rest acc
    else if useGate && !gate acc.calls then
      tickLoop gate useGate ctx rest { acc with calls := acc.calls + 1 }
    else
      tickLoop gate useGate ctx rest
        { offered := acc.offered ++ [key]
          fired := acc.fired ++ [key]
          calls := if useGate then acc.calls + 1 else acc.calls }

/-- One tick of `proactive_loop` (proactive.py lines 44-61): the top-of-tick
gate check, then the trigger loop.  Returns the new offered set and the keys
fired this tick. -/
def proactive_tick (canRun : Option (ℕ → Bool)) (ctx : RideContext) (offered : List String) :
    List String × List String :=
  match canRun with
  | some g =>
    if !g 0 then (offered, [])
    else
      let acc := tickLoop g true ctx TRIGGERS { offered := offered, fired := [], calls := 1 }
      (acc.offered, acc.fired)
  | none =>
    let acc := tickLoop (fun _ => true) false ctx TRIGGERS { offered := offered, fired := [], calls := 0 }
    (acc.offered, acc.fired)

/-- A session of successive ticks: each tick sees its own ride context and
gate answers; `offered` persists, and the fired keys accumulate in order. -/
def runTicks (inputs : List (RideContext × Option (ℕ → Bool))) (offered : List String) :
    List String × List String :=
  inputs.foldl
    (fun acc inp =>
      match proactive_tick inp.2 inp.1 acc.1 with
      | (off, fired) => (off, acc.2 ++ fired))
    (offered, [])

/-- Proof-side potential of a key during a tick: how many more times its
handler can possibly be invoked (its fire count so far, plus one more unless
it is already offered). -/
def keyBudget (acc : TickAcc) (k : String) : ℕ :=
  acc.fired.count k + (if k ∈ acc.offered then 0 else 1)

/-! ## Concrete inputs used by the testable properties -/

/-- A ride context on which the `boarding` trigger predicate holds. -/
def c7Ctx : RideContext :=
  { eta_seconds := 170, ride_duration_seconds := 900, elapsed_seconds := 5, hour_of_day := 14 }

/-- Frames 1–20 classified speech, frames 21–44 classified silence, the gate
open throughout (the boundary scenario of claim C4). -/
def c4Frames : List Frame :=
  (List.range' 1 20).map (fun i => { id := i, isSpeech := true, gated := false }) ++
    (List.range' 21 24).map (fun i => { id := i, isSpeech := false, gated := false })

/-- Frames 1–5 classified speech (150 ms), frames 6–29 classified silence, the
gate open throughout (the short-utterance scenario of claim C5). -/
def c5Frames : List Frame :=
  (List.range' 1 5).map (fun i => { id := i, isSpeech := true, gated := false }) ++
    (List.range' 6 24).map (fun i => { id := i, isSpeech := false, gated := false })

end TransitAgent

namespace TransitAgent

/-- Claim C1: for every guard state, `is_gated` at time `now` is exactly
`is_speaking || now < holdoff_until`; after `set_speaking(false, holdoff=True)`
at time `T` the holdoff deadline is exactly `T + 0.45 s`, `is_gated` is true at
every `t` in `[T, T + 0.45)`, and false at every `t ≥ T + 0.45` absent further
transitions. -/
theorem C1_gating_invariant (st : EchoGuardState) (T t : ℚ) :
    (∀ now, is_gated st now = (st.is_speaking || decide (now < st.holdoff_until))) ∧
    (set_speaking st false true T).holdoff_until = T + 45 / 100 ∧
    (T ≤ t → t < T + 45 / 100 → is_gated (set_speaking st false true T) t = true) ∧
    (T + 45 / 100 ≤ t → is_gated (set_speaking st false true T) t = false) := by
  refine ⟨fun now => ?_, by simp [set_speaking, HOLDOFF_SECONDS], fun _ h2 => ?_, fun h => ?_⟩
  · cases hs : st.is_speaking <;>
      by_cases hn : now < st.holdoff_until <;> simp [is_gated, hs, hn]
  · simp [is_gated, set_speaking, HOLDOFF_SECONDS, h2]
  · simp [is_gated, set_speaking, HOLDOFF_SECONDS, not_lt.2 h]

/-- Witness for C1 at `T = 10`, checked at `t = 10` and `t = 10.45`. -/
theorem C1_gating_invariant_witness :
    is_gated (set_speaking clearGuard false true 10) 10 = true ∧
    is_gated (set_speaking clearGuard false true 10) (10 + 45 / 100) = false :=
  ⟨(C1_gating_invariant clearGuard 10 10).2.2.1 le_rfl (by norm_num),
   (C1_gating_invariant clearGuard 10 (10 + 45 / 100)).2.2.2 le_rfl⟩

/-- Claim C2 counterexample: with the guard speaking (so that time 5 lies inside
a speaking interval) and no utterances registered, the transcript stream yields
the item captured at time 5 anyway — the consumer loop applies only the fuzzy
`is_echo` gate and never consults the timestamp, so "every transcript whose
capture timestamp falls inside a speaking or holdoff interval is dropped" fails. -/
theorem C2_no_timing_gate_cex :
    is_gated { is_speaking := true, holdoff_until := 0, recent_utterances := [] } 5 = true ∧
    streamFilter { is_speaking := true, holdoff_until := 0, recent_utterances := [] }
        [(("hello there").toList, 5)] = [(("hello there").toList, 5)] := by
  exact ⟨rfl, rfl⟩

/-- Claim C2 amended: the transcript stream applies only the fuzzy `is_echo`
gate to pulled items — an item is yielded iff it was queued and is not an echo,
independently of its timestamp; the timing defense lives upstream in the
capture callback, which discards all buffered audio and resets the segmentation
state whenever the guard is gated when a frame arrives, so gated-period audio
is dropped at the frame level. -/
theorem C2_stream_filter_amended :
    (∀ (st : EchoGuardState) (items : List (List Char × ℚ)) (it : List Char × ℚ),
      it ∈ streamFilter st items ↔ it ∈ items ∧ is_echo st it.1 = false) ∧
    (∀ (s : SegState) (f : Frame), f.gated = true → audio_callback s f = (initSeg, none)) := by
  constructor
  · intro st items it
    simp [streamFilter, List.mem_filter]
  · intro s f h
    simp [audio_callback, h]

/-- Witness for C2 amended: a gated frame wipes the segmenter state. -/
theorem C2_stream_filter_amended_witness :
    audio_callback { buffer := [1, 2], speech_started := true, silence_frames := 3 }
        { id := 7, isSpeech := false, gated := true } = (initSeg, none) :=
  C2_stream_filter_amended.2
    { buffer := [1, 2], speech_started := true, silence_frames := 3 }
    { id := 7, isSpeech := false, gated := true } rfl

/-- Claim C4 counterexample: on the 20-speech/24-silence stream the single
finalized utterance is frames 1–44, not frames 1–21 — the callback appends
every non-speech frame while an utterance is in progress, so the 24 trailing
silence frames are all part of the dispatched utterance. -/
theorem C4_utterance_boundary_cex :
    (runFrames c4Frames initSeg).2 = [List.range' 1 44] ∧
    List.range' 1 44 ≠ List.range' 1 21 := by
  exact ⟨by decide, by decide⟩

/-- Claim C4 amended: the 20-speech/24-silence stream finalizes exactly one
utterance, containing frames 1–44 (the 20 speech frames plus all 24 trailing
silence frames appended before the 700 ms threshold fires), for a duration of
44 × 30 ms = 1320 ms. -/
theorem C4_utterance_boundary_amended :
    (runFrames c4Frames initSeg).2 = [List.range' 1 44] ∧
    (List.range' 1 44).length * CHUNK_MS = 1320 := by
  exact ⟨by decide, by decide⟩

/-- Claim C5: the code dispatches the 5-speech-frame stream for transcription.
At finalization the buffer holds the 5 speech frames plus the 24 appended
silence frames — 29 × 480 = 13920 samples, which passes the
`int(MIN_UTTERANCE_MS / 1000 * SAMPLE_RATE) = 6400`-sample minimum check; the
check counts the appended trailing silence (at least 24 frames = 11520 samples
on every finalization), so it can never discard anything, contradicting the
documented 400 ms noise-discard behavior. -/
theorem C5_min_length_check_dead :
    (runFrames c5Frames initSeg).2 = [List.range' 1 29] ∧
    (List.range' 1 29).length * CHUNK_SAMPLES ≥ MIN_UTTERANCE_MS * SAMPLE_RATE / 1000 := by
  exact ⟨by decide, by decide⟩

/-- Helper: the TTS normalization of non-whitespace text is non-empty
(audio_output.py lines 48-55: when punctuation stripping empties the text, the
original stripped text is returned). -/
theorem normalize_for_tts_ne_nil {text : List Char} (h : pyStrip text ≠ []) :
    normalize_for_tts text ≠ [] := by
  have htext : text.isEmpty = false := by
    cases text with
    | nil => exact absurd rfl h
    | cons c cs => rfl
  have hps : (pyStrip text).isEmpty = false := by
    cases hh : pyStrip text with
    | nil => exact absurd hh h
    | cons c cs => rfl
  simp only [normalize_for_tts, htext, hps, Bool.or_self, Bool.false_eq_true, if_false]
  by_cases h2 :
      (stripPunctLoop ((pyStrip text).length + 1) (pyStrip text).reverse).reverse.isEmpty = true
  · rw [if_pos h2]
    exact h
  · rw [if_neg h2]
    intro hc
    rw [hc] at h2
    exact h2 rfl

/-- Claim C9: for every serviced speak request (`speak` only enqueues
non-whitespace text and a fresh, unresolved future) and for both playback
outcomes, the speaker loop's `finally` leaves the guard not speaking with the
holdoff deadline `endTime + 0.45 s`, and the future is resolved exactly once. -/
theorem C9_speaker_loop_closes_guard (st : EchoGuardState) (text : List Char)
    (playOk : Bool) (startTime endTime : ℚ) (h : pyStrip text ≠ []) :
    (serviceRequest st text playOk false startTime endTime).1.is_speaking = false ∧
    (serviceRequest st text playOk false startTime endTime).1.holdoff_until
        = endTime + 45 / 100 ∧
    (serviceRequest st text playOk false startTime endTime).2 = 1 := by
  have hn := normalize_for_tts_ne_nil h
  have hne : (normalize_for_tts text).isEmpty = false := by
    cases hh : normalize_for_tts text with
    | nil => exact absurd hh hn
    | cons c cs => rfl
  refine ⟨?_, ?_, ?_⟩ <;>
    simp [serviceRequest, hne, set_speaking, HOLDOFF_SECONDS]

/-- Witness for C9: a concrete request, with playback failing. -/
theorem C9_speaker_loop_closes_guard_witness :
    (serviceRequest clearGuard (("hello.").toList) false false 1 2).1.is_speaking = false ∧
    (serviceRequest clearGuard (("hello.").toList) false false 1 2).1.holdoff_until
        = 2 + 45 / 100 ∧
    (serviceRequest clearGuard (("hello.").toList) false false 1 2).2 = 1 :=
  C9_speaker_loop_closes_guard clearGuard (("hello.").toList) false 1 2 (by decide)

/-- Claim C10: calling `speak` with an empty or whitespace-only string returns
immediately: no request is enqueued, the queue is not created (so the speaker
loop is not started), and the echo-guard state — `is_speaking`,
`holdoff_until` and the recent-utterance buffer — is untouched. -/
theorem C10_speak_whitespace_noop (sys : SpeakerSys) (text : List Char)
    (h : pyStrip text = []) :
    speak sys text = sys ∧ (speak sys text).queue = sys.queue ∧
    (speak sys text).guard = sys.guard := by
  have hps : (pyStrip text).isEmpty = true := by rw [h]; rfl
  refine ⟨?_, ?_, ?_⟩ <;> simp [speak, hps]

/-- Helper: the integer comparison performed by `ratioGeThreshold` is exactly
`ECHO_THRESHOLD ≤ SequenceMatcher.ratio`. -/
theorem ratio_threshold_iff (a b : List Char) :
    ECHO_THRESHOLD ≤ smRatio a b ↔ 7 * (a.length + b.length) ≤ 20 * smMatches a b := by
  unfold ECHO_THRESHOLD smRatio
  by_cases h : a.length + b.length = 0
  · rw [if_pos h, h]
    norm_num
  · rw [if_neg h]
    have hT : (0 : ℚ) < ((a.length + b.length : ℕ) : ℚ) := by
      exact_mod_cast Nat.pos_of_ne_zero h
    rw [div_le_div_iff₀ (by norm_num) hT]
    rw [← Nat.cast_le (α := ℚ)]
    push_cast
    constructor <;> intro h2 <;> linarith

/-- Claim C3 counterexample: with the empty string registered as a recent
utterance, the claimed characterization makes the empty transcript an echo
(its `SequenceMatcher` ratio with the stored empty utterance is 1 ≥ 0.70), but
`is_echo` returns false on every empty transcript (`if ... not transcript:
return False`), so the claimed "if and only if" fails at `t = ""`. -/
theorem C3_is_echo_cex :
    is_echo { is_speaking := false, holdoff_until := 0, recent_utterances := [[]] } [] = false ∧
    ECHO_THRESHOLD ≤ smRatio (pyStrip (pyLower [])) [] := by
  exact ⟨rfl, (ratio_threshold_iff _ _).2 (by decide)⟩

set_option maxRecDepth 8000 in
/-- Claim C3 amended: `is_echo(t)` returns true iff `t` is a non-empty string
and some stored recent utterance `u` satisfies ratio(lowercase-trimmed `t`, `u`)
≥ 0.70, or the lowercase-trimmed `t` has length > 8 and is a substring of `u`;
and the three concrete examples of the claim hold. -/
theorem C3_is_echo_amended :
    (∀ (st : EchoGuardState) (t : List Char),
      is_echo st t = true ↔
        t ≠ [] ∧ ∃ u ∈ st.recent_utterances,
          ECHO_THRESHOLD ≤ smRatio (pyStrip (pyLower t)) u ∨
            (8 < (pyStrip (pyLower t)).length ∧ isSubstr (pyStrip (pyLower t)) u = true)) ∧
    is_echo (register_utterance clearGuard (("the weather is sunny and seventy degrees").toList))
        (("weather is sunny and seventy degrees").toList) = true ∧
    is_echo (register_utterance clearGuard (("the weather is sunny and seventy degrees").toList))
        (("what time is it").toList) = false ∧
    is_echo (register_utterance clearGuard (("please fasten your seatbelt for arrival").toList))
        (("fasten your seatbelt").toList) = true := by
  refine ⟨?_, by decide, by decide, by decide⟩
  intro st t
  by_cases ht : t = []
  · subst ht
    simp [is_echo]
  · have ht2 : t.isEmpty = false := by
      cases t with
      | nil => exact absurd rfl ht
      | cons c cs => rfl
    by_cases hr : st.recent_utterances = []
    · simp [is_echo, hr, ht]
    · have hr2 : st.recent_utterances.isEmpty = false := by
        cases hh : st.recent_utterances with
        | nil => exact absurd hh hr
        | cons u us => rfl
      simp [is_echo, ht2, hr2, ht, List.any_eq_true, ratioGeThreshold, ← ratio_threshold_iff]

/-- Claim C8 counterexample: a whitespace-only transcript is always suppressed
(`if not key: return True`, main.py line 69), even when its normalized form
differs from the previous processed transcript's and far more than 8 seconds
have elapsed — so "suppresses exactly when normalized-equal to the previous
transcript and less than 8 seconds elapsed" fails. -/
theorem C8_dedupe_cex :
    transcript_seen_recently
        { last_key := ("turn on the lights").toList, last_time := 0 } 100 (("   ").toList)
        = true ∧
    normKey (("   ").toList) ≠ ("turn on the lights").toList ∧
    ¬((100 : ℚ) - 0 < TRANSCRIPT_DEDUPE_SEC) := by
  refine ⟨rfl, by decide, ?_⟩
  norm_num [TRANSCRIPT_DEDUPE_SEC]

/-- Claim C8 amended: the dedupe filter suppresses a transcript exactly when
its normalized form is empty, or it equals the previous processed transcript's
normalized form with less than 8 seconds elapsed since that transcript was
processed; the two concrete examples hold — identical transcripts 3 seconds
apart are one processed event, 10 seconds apart are two. -/
theorem C8_dedupe_amended :
    (∀ (st : DedupeState) (now : ℚ) (t : List Char),
      transcript_seen_recently st now t = true ↔
        normKey t = [] ∨
          (normKey t = st.last_key ∧ now - st.last_time < TRANSCRIPT_DEDUPE_SEC)) ∧
    (processTranscripts { last_key := [], last_time := 0 }
        [(100, ("turn on the lights").toList), (103, ("turn on the lights").toList)]).2 = 1 ∧
    (processTranscripts { last_key := [], last_time := 0 }
        [(100, ("turn on the lights").toList), (110, ("turn on the lights").toList)]).2 = 2 := by
  have hnk : normKey (("turn on the lights").toList) = ("turn on the lights").toList := by
    decide
  have hkeyne : decide (("turn on the lights").toList = ([] : List Char)) = false := by decide
  have hkeyeq :
      decide (("turn on the lights").toList = ("turn on the lights").toList) = true := by decide
  have hempty : (("turn on the lights").toList).isEmpty = false := by decide
  have hlt : decide ((103 : ℚ) - 100 < TRANSCRIPT_DEDUPE_SEC) = true :=
    decide_eq_true (by norm_num [TRANSCRIPT_DEDUPE_SEC])
  have hge : decide ((110 : ℚ) - 100 < TRANSCRIPT_DEDUPE_SEC) = false :=
    decide_eq_false (by norm_num [TRANSCRIPT_DEDUPE_SEC])
  refine ⟨?_, ?_, ?_⟩
  · intro st now t
    by_cases hk : normKey t = []
    · have he : (normKey t).isEmpty = true := by rw [hk]; rfl
      simp [transcript_seen_recently, he, hk]
    · have he : (normKey t).isEmpty = false := by
        cases hh : normKey t with
        | nil => exact absurd hh hk
        | cons c cs => rfl
      simp [transcript_seen_recently, he, hk]
  · simp only [processTranscripts, List.foldl, transcript_seen_recently,
      mark_transcript_processed, hnk, hempty, Bool.false_eq_true, if_false, hkeyne,
      Bool.false_and, hkeyeq, Bool.true_and, hlt, if_true]
    norm_num
  · simp only [processTranscripts, List.foldl, transcript_seen_recently,
      mark_transcript_processed, hnk, hempty, Bool.false_eq_true, if_false, hkeyne,
      Bool.false_and, hkeyeq, Bool.true_and, hge, if_true]
    norm_num

/-- Helper: a weave whose left component is empty is its right component. -/
theorem weave_eq_nil_left {xs ys zs : List (Bool × TurnEvent)} (h : Weave xs ys zs) :
    xs = [] → zs = ys := by
  induction h with
  | nil => intro _; rfl
  | left _ _ => intro hx; exact absurd hx (List.cons_ne_nil _ _)
  | right _ ih => intro hx; rw [ih hx]

/-- Helper: interleaving is symmetric in its two input schedules. -/
theorem weave_swap {xs ys zs : List (Bool × TurnEvent)} (h : Weave xs ys zs) :
    Weave ys xs zs := by
  induction h with
  | nil => exact Weave.nil
  | left _ ih => exact Weave.right ih
  | right _ ih => exact Weave.left ih

/-- Helper: a tagged turn is an acquire, the tagged locked body, a release. -/
theorem tagEvents_turnBody (t : Bool) (h : Bool) :
    tagEvents t (turnBody h) =
      (t, TurnEvent.acquire) :: (tagEvents t (midBody h) ++ [(t, TurnEvent.release)]) := by
  simp [tagEvents, turnBody]

/-- Helper: the locked body contains no lock operation of its own. -/
theorem midBody_no_lock (h : Bool) :
    ∀ e ∈ midBody h, e ≠ TurnEvent.acquire ∧ e ≠ TurnEvent.release := by
  cases h <;> decide

/-- Helper: while task `t` holds the lock, no event of the other task — whose
next event is an acquire — can be scheduled, so the holder's remaining events
run to completion (through its release) before the other task starts. -/
theorem weave_locked_run (t : Bool) (mid : List TurnEvent) :
    ∀ (t2 : Bool) (rest2 tr : List (Bool × TurnEvent)),
      (∀ e ∈ mid, e ≠ TurnEvent.acquire ∧ e ≠ TurnEvent.release) →
      Weave (tagEvents t mid ++ [(t, TurnEvent.release)]) ((t2, TurnEvent.acquire) :: rest2) tr →
      lockOk (some t) tr = true →
      tr = (tagEvents t mid ++ [(t, TurnEvent.release)]) ++ ((t2, TurnEvent.acquire) :: rest2) := by
  induction mid with
  | nil =>
    intro t2 rest2 tr hmid hw hlock
    simp only [tagEvents, List.map_nil, List.nil_append] at hw ⊢
    cases hw with
    | left hw2 =>
      rw [weave_eq_nil_left hw2 rfl]
      rfl
    | right hw2 =>
      simp [lockOk] at hlock
  | cons e mid ih =>
    intro t2 rest2 tr hmid hw hlock
    have he := hmid e (List.mem_cons_self _ _)
    simp only [tagEvents, List.map_cons, List.cons_append] at hw ⊢
    cases hw with
    | left hw2 =>
      rename_i tr2
      have hlock2 : lockOk (some t) tr2 = true := by
        cases e with
        | acquire => exact absurd rfl he.1
        | release => exact absurd rfl he.2
        | generate => simpa [lockOk] using hlock
        | displaySpeaking => simpa [lockOk] using hlock
        | speakCall => simpa [lockOk] using hlock
        | displayIdle => simpa [lockOk] using hlock
      rw [ih t2 rest2 tr2 (fun x hx => hmid x (List.mem_cons_of_mem _ hx)) hw2 hlock2]
      simp [tagEvents]
    | right hw2 =>
      simp [lockOk] at hlock

/-- Claim C6: both complete-turn code paths — the user-transcript turn and the
proactive turn — consist of acquiring the single turn lock, generating the
response, optionally displaying and speaking it, setting the display to idle,
and only then releasing the lock.  Under the mutual-exclusion semantics of the
lock, the only valid interleavings of a user turn and a proactive turn are the
two sequential orders: one turn runs to completion (response generation,
`speak`, idle display, release) before the other starts, so at most one turn
executes at any time and the responses never overlap. -/
theorem C6_turn_mutex (h1 h2 : Bool) (tr : List (Bool × TurnEvent))
    (hw : Weave (tagEvents false (turnBody h1)) (tagEvents true (turnBody h2)) tr)
    (hl : lockOk none tr = true) :
    tr = tagEvents false (turnBody h1) ++ tagEvents true (turnBody h2) ∨
      tr = tagEvents true (turnBody h2) ++ tagEvents false (turnBody h1) := by
  rw [tagEvents_turnBody false h1, tagEvents_turnBody true h2] at hw
  cases hw with
  | left hw2 =>
    rename_i tr2
    left
    have hl2 : lockOk (some false) tr2 = true := by simpa [lockOk] using hl
    have hrun := weave_locked_run false (midBody h1) true _ tr2 (midBody_no_lock h1) hw2 hl2
    rw [tagEvents_turnBody false h1, tagEvents_turnBody true h2, hrun]
    simp
  | right hw2 =>
    rename_i tr2
    right
    have hl2 : lockOk (some true) tr2 = true := by simpa [lockOk] using hl
    have hrun := weave_locked_run true (midBody h2) false _ tr2 (midBody_no_lock h2)
      (weave_swap hw2) hl2
    rw [tagEvents_turnBody false h1, tagEvents_turnBody true h2, hrun]
    simp

/-- Witness for C6: the schedule that runs the whole user turn, then the whole
proactive turn, is a lock-valid interleaving, and the theorem classifies it. -/
theorem C6_turn_mutex_witness :
    tagEvents false (turnBody true) ++ tagEvents true (turnBody true) =
        tagEvents false (turnBody true) ++ tagEvents true (turnBody true) ∨
      tagEvents false (turnBody true) ++ tagEvents true (turnBody true) =
        tagEvents true (turnBody true) ++ tagEvents false (turnBody true) :=
  C6_turn_mutex true true _
    (by
      show Weave
        [(false, TurnEvent.acquire), (false, TurnEvent.generate),
         (false, TurnEvent.displaySpeaking), (false, TurnEvent.speakCall),
         (false, TurnEvent.displayIdle), (false, TurnEvent.release)]
        [(true, TurnEvent.acquire), (true, TurnEvent.generate),
         (true, TurnEvent.displaySpeaking), (true, TurnEvent.speakCall),
         (true, TurnEvent.displayIdle), (true, TurnEvent.release)]
        [(false, TurnEvent.acquire), (false, TurnEvent.generate),
         (false, TurnEvent.displaySpeaking), (false, TurnEvent.speakCall),
         (false, TurnEvent.displayIdle), (false, TurnEvent.release),
         (true, TurnEvent.acquire), (true, TurnEvent.generate),
         (true, TurnEvent.displaySpeaking), (true, TurnEvent.speakCall),
         (true, TurnEvent.displayIdle), (true, TurnEvent.release)]
      repeat first
        | exact Weave.nil
        | apply Weave.left
        | apply Weave.right)
    (by decide)

/-- Helper: the trigger loop only ever appends to `offered`. -/
theorem tickLoop_offered_mono (gate : ℕ → Bool) (useGate : Bool) (ctx : RideContext) :
    ∀ (ts : List (String × (RideContext → Bool))) (acc : TickAcc) (k : String),
      k ∈ acc.offered → k ∈ (tickLoop gate useGate ctx ts acc).offered := by
  intro ts
  induction ts with
  | nil => intro acc k hk; exact hk
  | cons p rest ih =>
    obtain ⟨key, cond⟩ := p
    intro acc k hk
    simp only [tickLoop]
    split_ifs <;>
      first
        | exact ih _ k hk
        | exact ih _ k (by simp [hk])

/-- Helper: the trigger loop only ever appends to the fired list. -/
theorem tickLoop_fired_mono (gate : ℕ → Bool) (useGate : Bool) (ctx : RideContext) :
    ∀ (ts : List (String × (RideContext → Bool))) (acc : TickAcc) (k : String),
      k ∈ acc.fired → k ∈ (tickLoop gate useGate ctx ts acc).fired := by
  intro ts
  induction ts with
  | nil => intro acc k hk; exact hk
  | cons p rest ih =>
    obtain ⟨key, cond⟩ := p
    intro acc k hk
    simp only [tickLoop]
    split_ifs <;>
      first
        | exact ih _ k hk
        | exact ih _ k (by simp [hk])

/-- Helper: every key the trigger loop fires it also marks offered. -/
theorem tickLoop_fired_sub (gate : ℕ → Bool) (useGate : Bool) (ctx : RideContext) :
    ∀ (ts : List (String × (RideContext → Bool))) (acc : TickAcc),
      (∀ k ∈ acc.fired, k ∈ acc.offered) →
      ∀ k ∈ (tickLoop gate useGate ctx ts acc).fired,
        k ∈ (tickLoop gate useGate ctx ts acc).offered := by
  intro ts
  induction ts with
  | nil => intro acc hinv; exact hinv
  | cons p rest ih =>
    obtain ⟨key, cond⟩ := p
    intro acc hinv
    simp only [tickLoop]
    split_ifs
    · exact ih _ hinv
    · exact ih _ hinv
    · exact ih _ hinv
    all_goals
      refine ih _ ?_
      intro k hk
      simp only [List.mem_append, List.mem_singleton] at hk ⊢
      rcases hk with hk | hk
      · exact Or.inl (hinv k hk)
      · exact Or.inr hk

/-- Helper: firing a not-yet-offered key does not increase any key's
potential — the fired occurrence is paid for by marking the key offered. -/
theorem keyBudget_fire_le (acc : TickAcc) (key k : String) (h1 : key ∉ acc.offered) (c : ℕ) :
    keyBudget { offered := acc.offered ++ [key], fired := acc.fired ++ [key], calls := c } k ≤
      keyBudget acc k := by
  by_cases hkk : k = key
  · subst hkk
    simp [keyBudget, List.count_append, h1]
  · simp [keyBudget, List.count_append, List.mem_append, hkk]

/-- Helper: a tick never increases any key's firing potential: firing a key
consumes its budget by marking it offered, and nothing restores budget. -/
theorem tickLoop_budget (gate : ℕ → Bool) (useGate : Bool) (ctx : RideContext) :
    ∀ (ts : List (String × (RideContext → Bool))) (acc : TickAcc) (k : String),
      keyBudget (tickLoop gate useGate ctx ts acc) k ≤ keyBudget acc k := by
  intro ts
  induction ts with
  | nil => intro acc k; exact le_rfl
  | cons p rest ih =>
    obtain ⟨key, cond⟩ := p
    intro acc k
    simp only [tickLoop]
    split_ifs with h1 h2 h3 <;>
      first
        | exact ih _ k
        | exact le_trans (ih _ k) (keyBudget_fire_le acc key k h1 _)

/-- Helper: a whole tick never increases a key's firing potential; the tick's
fired keys count against the budget of the offered set it starts from. -/
theorem proactive_tick_budget (canRun : Option (ℕ → Bool)) (ctx : RideContext)
    (offered : List String) (k : String) :
    (proactive_tick canRun ctx offered).2.count k +
        (if k ∈ (proactive_tick canRun ctx offered).1 then 0 else 1) ≤
      (if k ∈ offered then 0 else 1) := by
  rcases canRun with _ | g
  · have h := tickLoop_budget (fun _ => true) false ctx TRIGGERS
      { offered := offered, fired := [], calls := 0 } k
    simpa [proactive_tick, keyBudget] using h
  · cases hg : g 0 with
    | false => simp [proactive_tick, hg]
    | true =>
      have h := tickLoop_budget g true ctx TRIGGERS
        { offered := offered, fired := [], calls := 1 } k
      simpa [proactive_tick, hg, keyBudget] using h

/-- Helper: monotonicity of the offered set across one tick. -/
theorem proactive_tick_offered_mono (canRun : Option (ℕ → Bool)) (ctx : RideContext)
    (offered : List String) (k : String) (hk : k ∈ offered) :
    k ∈ (proactive_tick canRun ctx offered).1 := by
  rcases canRun with _ | g
  · have h := tickLoop_offered_mono (fun _ => true) false ctx TRIGGERS
      { offered := offered, fired := [], calls := 0 } k hk
    simpa [proactive_tick] using h
  · cases hg : g 0 with
    | false => simpa [proactive_tick, hg] using hk
    | true =>
      have h := tickLoop_offered_mono g true ctx TRIGGERS
        { offered := offered, fired := [], calls := 1 } k hk
      simpa [proactive_tick, hg] using h

/-- Helper: every key a tick fires ends the tick in the offered set. -/
theorem proactive_tick_fired_sub (canRun : Option (ℕ → Bool)) (ctx : RideContext)
    (offered : List String) (k : String) (hk : k ∈ (proactive_tick canRun ctx offered).2) :
    k ∈ (proactive_tick canRun ctx offered).1 := by
  rcases canRun with _ | g
  · revert hk
    simp only [proactive_tick]
    exact tickLoop_fired_sub (fun _ => true) false ctx TRIGGERS
      { offered := offered, fired := [], calls := 0 } (by intro x hx; cases hx) k
  · cases hg : g 0 with
    | false =>
      revert hk
      simp [proactive_tick, hg]
    | true =>
      revert hk
      simp only [proactive_tick, hg, Bool.not_true, Bool.false_eq_true, if_false]
      exact tickLoop_fired_sub g true ctx TRIGGERS
        { offered := offered, fired := [], calls := 1 } (by intro x hx; cases hx) k

/-- Helper: across a run of ticks, each key's total fire count plus its
remaining potential never exceeds the potential it started with. -/
theorem runTicks_budget :
    ∀ (inputs : List (RideContext × Option (ℕ → Bool))) (off fired : List String) (k : String),
      (inputs.foldl
          (fun acc inp =>
            match proactive_tick inp.2 inp.1 acc.1 with
            | (off2, tf) => (off2, acc.2 ++ tf))
          (off, fired)).2.count k +
          (if k ∈ (inputs.foldl
              (fun acc inp =>
                match proactive_tick inp.2 inp.1 acc.1 with
                | (off2, tf) => (off2, acc.2 ++ tf))
              (off, fired)).1 then 0 else 1) ≤
        fired.count k + (if k ∈ off then 0 else 1) := by
  intro inputs
  induction inputs with
  | nil => intro off fired k; exact le_rfl
  | cons inp rest ih =>
    intro off fired k
    simp only [List.foldl_cons]
    refine le_trans (ih (proactive_tick inp.2 inp.1 off).1
      (fired ++ (proactive_tick inp.2 inp.1 off).2) k) ?_
    rw [List.count_append]
    have h := proactive_tick_budget inp.2 inp.1 off k
    omega

/-- Helper: with the gate always open, a not-yet-offered trigger whose
predicate holds fires during the loop pass. -/
theorem tickLoop_fires (ctx : RideContext) :
    ∀ (ts : List (String × (RideContext → Bool))) (acc : TickAcc) (key : String)
      (cond : RideContext → Bool),
      (key, cond) ∈ ts → cond ctx = true → key ∉ acc.offered →
      (ts.map Prod.fst).Nodup →
      key ∈ (tickLoop (fun _ => true) true ctx ts acc).fired := by
  intro ts
  induction ts with
  | nil => intro acc key cond hmem; cases hmem
  | cons p rest ih =>
    obtain ⟨k0, c0⟩ := p
    intro acc key cond hmem hcond hoff hnodup
    rw [List.map_cons, List.nodup_cons] at hnodup
    rcases List.mem_cons.1 hmem with heq | htail
    · rw [Prod.mk.injEq] at heq
      obtain ⟨hk, hc⟩ := heq
      subst hk
      subst hc
      simp only [tickLoop, if_neg hoff, hcond, Bool.not_true, Bool.and_false,
        Bool.false_eq_true, if_false]
      exact tickLoop_fired_mono _ _ _ _ _ key (by simp)
    · have hkmem : key ∈ rest.map Prod.fst := List.mem_map_of_mem Prod.fst htail
      have hkey0 : key ≠ k0 := by
        intro hk
        rw [hk] at hkmem
        exact hnodup.1 hkmem
      simp only [tickLoop]
      split_ifs with h1 h2 h3
      · exact ih _ key cond htail hcond hoff hnodup.2
      · exact ih _ key cond htail hcond hoff hnodup.2
      · exact ih _ key cond htail hcond hoff hnodup.2
      · refine ih _ key cond htail hcond ?_ hnodup.2
        simp only [List.mem_append, List.mem_singleton]
        rintro (hk | hk)
        · exact hoff hk
        · exact hkey0 hk

/-- Helper: across a run of ticks, every fired key ends up in the offered set. -/
theorem runTicks_fired_sub :
    ∀ (inputs : List (RideContext × Option (ℕ → Bool))) (offered fired : List String)
      (key : String),
      (∀ k ∈ fired, k ∈ offered) →
      key ∈ (inputs.foldl
          (fun acc inp =>
            match proactive_tick inp.2 inp.1 acc.1 with
            | (off2, tf) => (off2, acc.2 ++ tf))
          (offered, fired)).2 →
      key ∈ (inputs.foldl
          (fun acc inp =>
            match proactive_tick inp.2 inp.1 acc.1 with
            | (off2, tf) => (off2, acc.2 ++ tf))
          (offered, fired)).1 := by
  intro inputs
  induction inputs with
  | nil =>
    intro offered fired key hinv hk
    exact hinv key hk
  | cons inp rest ih =>
    intro offered fired key hinv hk
    simp only [List.foldl_cons] at hk ⊢
    refine ih (proactive_tick inp.2 inp.1 offered).1
      (fired ++ (proactive_tick inp.2 inp.1 offered).2) key ?_ hk
    intro k hkk
    rcases List.mem_append.1 hkk with hkk | hkk
    · exact proactive_tick_offered_mono inp.2 inp.1 offered k (hinv k hkk)
    · exact proactive_tick_fired_sub inp.2 inp.1 offered k hkk

/-- Claim C7: (1) across any session of ticks a key's handler is invoked at
most once; (2) every fired key is recorded in the offered set; (3) a tick whose
gate is closed runs no trigger and marks nothing offered — the trigger is
deferred, not dropped; (4) on a later tick with the gate open, a deferred,
not-yet-offered trigger whose predicate holds does fire. -/
theorem C7_proactive_single_fire :
    (∀ (inputs : List (RideContext × Option (ℕ → Bool))) (offered : List String) (key : String),
      (runTicks inputs offered).2.count key ≤ 1) ∧
    (∀ (inputs : List (RideContext × Option (ℕ → Bool))) (offered : List String) (key : String),
      key ∈ (runTicks inputs offered).2 → key ∈ (runTicks inputs offered).1) ∧
    (∀ (ctx : RideContext) (offered : List String),
      proactive_tick (some fun _ => false) ctx offered = (offered, [])) ∧
    (∀ (ctx : RideContext) (offered : List String) (key : String) (cond : RideContext → Bool),
      (key, cond) ∈ TRIGGERS → cond ctx = true → key ∉ offered →
      key ∈ (proactive_tick (some fun _ => true) ctx offered).2) := by
  refine ⟨?_, ?_, ?_, ?_⟩
  · intro inputs offered key
    have h := runTicks_budget inputs offered [] key
    simp only [List.count_nil, Nat.zero_add] at h
    have h2 : (if key ∈ offered then 0 else 1) ≤ 1 := by split <;> omega
    calc (runTicks inputs offered).2.count key
        ≤ (runTicks inputs offered).2.count key +
            (if key ∈ (runTicks inputs offered).1 then 0 else 1) := Nat.le_add_right _ _
      _ ≤ (if key ∈ offered then 0 else 1) := h
      _ ≤ 1 := h2
  · intro inputs offered key hk
    exact runTicks_fired_sub inputs offered [] key (by intro x hx; cases hx) hk
  · intro ctx offered
    rfl
  · intro ctx offered key cond hmem hcond hoff
    have hnodup : (TRIGGERS.map Prod.fst).Nodup := by decide
    simp only [proactive_tick, Bool.not_true, Bool.false_eq_true, if_false]
    exact tickLoop_fires ctx TRIGGERS
      { offered := offered, fired := [], calls := 1 } key cond hmem hcond hoff hnodup

/-- Witness for C7: the `boarding` trigger on a just-boarded context — a
closed gate defers it, an open gate fires it, and across five consecutive
open-gate ticks with its predicate true throughout it fires at most once. -/
theorem C7_proactive_single_fire_witness :
    (runTicks (List.replicate 5 (c7Ctx, some fun _ => true)) []).2.count "boarding" ≤ 1 ∧
    proactive_tick (some fun _ => false) c7Ctx [] = ([], []) ∧
    "boarding" ∈ (proactive_tick (some fun _ => true) c7Ctx []).2 :=
  ⟨C7_proactive_single_fire.1 (List.replicate 5 (c7Ctx, some fun _ => true)) [] "boarding",
   C7_proactive_single_fire.2.2.1 c7Ctx [],
   C7_proactive_single_fire.2.2.2 c7Ctx [] "boarding"
     (fun ctx => decide (ctx.elapsed_seconds < 15)) (List.Mem.head _) (by decide)
     (by simp)⟩

/-- Witness for C10: whitespace-only text, never-started loop. -/
theorem C10_speak_whitespace_noop_witness :
    speak { queue := none, guard := clearGuard } (("   ").toList)
        = { queue := none, guard := clearGuard } :=
  (C10_speak_whitespace_noop { queue := none, guard := clearGuard } (("   ").toList)
    (by decide)).1

end TransitAgent
